import Mathlib

/-!
Verification of the widget queue consumer (`consumer.py`).

The consumer polls a request bucket, parses each message body as JSON,
routes it by its `type` field to a storage strategy (S3 document storage
or DynamoDB flattened storage), and deletes the message on completion.
This file embeds the request/widget data model, the two widget
transformers, the create/delete handlers of both storage strategies, and
the polling loop's error-classification policy, and proves the spec's
claims about them.

Modelling conventions:
* Parsed JSON objects are association lists with Python-dict semantics
  (assignment updates the first occurrence of a key in place, otherwise
  appends; lookup finds the first occurrence).  JSON values are
  restricted to the shapes the consumer's data model uses: null,
  strings, and arrays of string-valued objects (the shape of
  `otherAttributes`).
* Python exceptions become an error type `PyErr`; a raising computation
  returns `Except PyErr`.  The polling loop's `except` chain becomes a
  match on the error value.
* Backend stores are association lists; `put` ops overwrite, `delete`
  ops remove.  A boolean `fault` parameter injects a `ClientError` on
  the backend put calls (the environment-dependent service failures the
  spec's error taxonomy calls BackendTransientError).
-/

/-- A JSON value, restricted to the shapes the consumer manipulates:
null, strings, and arrays of objects with string values (the shape of
`otherAttributes`). -/
inductive JVal where
  | vnull : JVal
  | vstr : String → JVal
  | varr : List (List (String × String)) → JVal
deriving DecidableEq, Repr

/-- A parsed JSON object (a Python dict), as an association list. -/
abbrev Dict := List (String × JVal)

/-- Python exceptions that the consumer raises or catches. -/
inductive PyErr where
  | jsonDecodeError : PyErr
  | clientError : String → PyErr
  | keyError : String → PyErr
  | typeError : PyErr
  | attributeError : PyErr
deriving DecidableEq, Repr

/-- Dict lookup: the value at the first occurrence of key `k`. -/
def dictGet? {κ α : Type} [DecidableEq κ] : List (κ × α) → κ → Option α
  | [], _ => none
  | kv :: rest, k => if kv.1 = k then some kv.2 else dictGet? rest k

/-- Python `d.get(k, dflt)`. -/
def dictGetD (d : Dict) (k : String) (dflt : JVal) : JVal :=
  (dictGet? d k).getD dflt

/-- Python dict assignment `d[k] = v`: update the first occurrence of
`k` in place, else append. -/
def dictSet {κ α : Type} [DecidableEq κ] : List (κ × α) → κ → α → List (κ × α)
  | [], k, v => [(k, v)]
  | kv :: rest, k, v =>
    if kv.1 = k then (k, v) :: rest else kv :: dictSet rest k v

/-- Removal of a key (the effect of a backend delete call). -/
def dictRemove {κ α : Type} [DecidableEq κ] (d : List (κ × α)) (k : κ) : List (κ × α) :=
  d.filter (fun kv => kv.1 ≠ k)

/-- The keys of a dict, in order. -/
def keysOf {κ α : Type} (d : List (κ × α)) : List κ :=
  d.map Prod.fst

/-- Source `BaseStorage._kebab_owner`: falsy owners (`None`, `""`, `[]`) become
the sentinel slug; otherwise lowercase and replace spaces with hyphens
(Python's `owner.lower().replace(" ", "-")`, modelled per character).
A non-empty list has no `.lower()`, so Python raises `AttributeError`. -/
def kebabString (s : String) : String :=
  String.mk (s.data.map (fun c => if c = ' ' then '-' else c.toLower))

/-- Source `BaseStorage._kebab_owner` on a JSON value. -/
def kebabOwner : JVal → Except PyErr String
  | .vnull => .ok "unknown-owner"
  | .vstr s => .ok (if s = "" then "unknown-owner" else kebabString s)
  | .varr objs => if objs.isEmpty then .ok "unknown-owner" else .error .attributeError

/-- Python's `str()` as used in the f-string key interpolation.  String
values interpolate verbatim; `None` prints as `None`; a list of dicts
prints in Python repr form. -/
def pyStrObj (obj : List (String × String)) : String :=
  "\x7b" ++ String.intercalate ", "
    (obj.map (fun p => "\x27" ++ p.1 ++ "\x27: \x27" ++ p.2 ++ "\x27")) ++ "\x7d"

/-- Python's `str()` on a JSON value. -/
def pyStr : JVal → String
  | .vnull => "None"
  | .vstr s => s
  | .varr objs => "[" ++ String.intercalate ", " (objs.map pyStrObj) ++ "]"

/-- The loop of `S3Storage._make_widget_from_request`, iterating over
the request's items and building the widget dict. -/
def makeWidgetCore : Dict → Dict → Dict
  | [], w => w
  | kv :: rest, w =>
    if kv.1 = "type" ∨ kv.1 = "requestId" then makeWidgetCore rest w
    else if kv.1 = "widgetId" then makeWidgetCore rest (dictSet w "id" kv.2)
    else makeWidgetCore rest (dictSet w kv.1 kv.2)

/-- Source `S3Storage._make_widget_from_request`: the document-shape widget. -/
def makeWidgetFromRequest (req : Dict) : Dict :=
  makeWidgetCore req []

/-- The `'name' in attr and 'value' in attr` guard followed by the two
lookups, for one `otherAttributes` entry. -/
def attrPair? (obj : List (String × String)) : Option (String × String) :=
  match dictGet? obj "name", dictGet? obj "value" with
  | some n, some v => some (n, v)
  | _, _ => none

/-- The inner flattening loop of
`DynamoDBStorage._make_widget_from_request_dynamo`: each well-formed
`{name, value}` entry is assigned as a top-level key. -/
def flattenAttrs : List (List (String × String)) → Dict → Dict
  | [], w => w
  | obj :: rest, w =>
    match attrPair? obj with
    | some nv => flattenAttrs rest (dictSet w nv.1 (JVal.vstr nv.2))
    | none => flattenAttrs rest w

/-- The outer loop of `_make_widget_from_request_dynamo`.  Iterating a
string `otherAttributes` value yields characters, none of which contains
the key `name`, so nothing is added; iterating `None` raises
`TypeError`. -/
def makeDynamoCore : Dict → Dict → Except PyErr Dict
  | [], w => .ok w
  | kv :: rest, w =>
    if kv.1 = "type" ∨ kv.1 = "requestId" then makeDynamoCore rest w
    else if kv.1 = "widgetId" then makeDynamoCore rest (dictSet w "id" kv.2)
    else if kv.1 = "otherAttributes" then
      match kv.2 with
      | .varr objs => makeDynamoCore rest (flattenAttrs objs w)
      | .vstr _ => makeDynamoCore rest w
      | .vnull => .error .typeError
    else makeDynamoCore rest (dictSet w kv.1 kv.2)

/-- The final comprehension `if v is not None and v != ""`. -/
def notEmptyVal (v : JVal) : Bool :=
  if v = JVal.vnull then false else if v = JVal.vstr "" then false else true

/-- Source `DynamoDBStorage._make_widget_from_request_dynamo`: the flattened
widget item. -/
def makeWidgetFromRequestDynamo (req : Dict) : Except PyErr Dict :=
  (makeDynamoCore req []).map (fun w => w.filter (fun kv => notEmptyVal kv.2))

deriving instance DecidableEq for Except

/-- The S3 destination bucket contents: object key → stored widget
document (the JSON body is stored as the widget dict itself). -/
abbrev S3Store := List (String × Dict)

/-- The DynamoDB table contents: `id` attribute value → stored item. -/
abbrev DynStore := List (JVal × Dict)

/-- Log levels of the `logging` calls the consumer makes. -/
inductive LogLevel where
  | info : LogLevel
  | warning : LogLevel
  | error : LogLevel
deriving DecidableEq, Repr

/-- The consumer's log statements, one constructor per `logger.…` call
site, carrying the interpolated data. -/
inductive LogMsg where
  | processCreate (widgetId requestId : JVal)
  | addToS3 (key : String)
  | deletedFromS3 (widgetId : JVal) (key : String)
  | notFoundS3 (widgetId : JVal) (key : String)
  | updateNotImplemented (widgetId : Option JVal)
  | unknownRequestType (reqType : Option JVal) (requestId : Option JVal)
  | addToDynamo (id : Option JVal)
  | deletedFromDynamo (widgetId : JVal)
  | notFoundDynamo (widgetId : JVal)
  | foundRequest (key : String)
  | processedAndDeleted (key : String)
  | parseFailure (key : String)
  | awsClientError (key : String) (code : String)
  | unhandledError (key : String)
deriving DecidableEq, Repr

/-- The logging level each call site uses. -/
def LogMsg.level : LogMsg → LogLevel
  | .notFoundS3 _ _ => .warning
  | .notFoundDynamo _ => .warning
  | .updateNotImplemented _ => .warning
  | .unknownRequestType _ _ => .error
  | .parseFailure _ => .error
  | .awsClientError _ _ => .error
  | .unhandledError _ => .error
  | _ => .info

/-- The backend and message-source calls the consumer can issue, in
order of issue.  `srcDelete` is `delete_file_from_s3` on the request
bucket; the rest are storage-sink calls. -/
inductive Op where
  | putObject (key : String)
  | headObject (key : String)
  | deleteObject (key : String)
  | putItem (item : Dict)
  | getItem (id : JVal)
  | deleteItem (id : JVal)
  | srcDelete (key : String)
deriving DecidableEq, Repr

/-- Outcome of running one handler (or the router): the new store or
the raised exception, plus the backend calls issued and the log lines
emitted, in order. -/
structure HandlerOut (σ : Type) where
  res : Except PyErr σ
  ops : List Op
  log : List LogMsg

/-- Source `S3Storage._handle_create_request`.  The first log line evaluates
`parsed_request['widgetId']` and `['requestId']`, so a missing field
raises `KeyError` before anything else happens.  When `fault` is set the
`put_object` call raises a `ClientError` (service failure). -/
def s3HandleCreate (fault : Bool) (st : S3Store) (req : Dict) : HandlerOut S3Store :=
  match dictGet? req "widgetId" with
  | none => ⟨.error (.keyError "widgetId"), [], []⟩
  | some wv =>
    match dictGet? req "requestId" with
    | none => ⟨.error (.keyError "requestId"), [], []⟩
    | some rv =>
      let widget := makeWidgetFromRequest req
      match kebabOwner (dictGetD req "owner" .vnull) with
      | .error e => ⟨.error e, [], [.processCreate wv rv]⟩
      | .ok ow =>
        match dictGet? widget "id" with
        | none => ⟨.error (.keyError "id"), [], [.processCreate wv rv]⟩
        | some idv =>
          let key := "widgets/" ++ ow ++ "/" ++ pyStr idv
          if fault then
            ⟨.error (.clientError "InternalError"), [.putObject key],
             [.processCreate wv rv, .addToS3 key]⟩
          else
            ⟨.ok (dictSet st key widget), [.putObject key],
             [.processCreate wv rv, .addToS3 key]⟩

/-- Source `S3Storage._handle_delete_request`.  A `head_object` call on an absent key
raises a `ClientError` with code `404`, which the handler catches and
turns into a warning; on a present key the object is deleted. -/
def s3HandleDelete (st : S3Store) (req : Dict) : HandlerOut S3Store :=
  match dictGet? req "widgetId" with
  | none => ⟨.error (.keyError "widgetId"), [], []⟩
  | some wv =>
    match kebabOwner (dictGetD req "owner" (.vstr "")) with
    | .error e => ⟨.error e, [], []⟩
    | .ok ow =>
      let key := "widgets/" ++ ow ++ "/" ++ pyStr wv
      match dictGet? st key with
      | none => ⟨.ok st, [.headObject key], [.notFoundS3 wv key]⟩
      | some _ =>
        ⟨.ok (dictRemove st key), [.headObject key, .deleteObject key],
         [.deletedFromS3 wv key]⟩

/-- Source `DynamoDBStorage._handle_create_request`.  Here `put_item` stores the
item under its `id` attribute; an item without one is rejected by the
service (`ClientError`), and `fault` injects a service failure. -/
def dynHandleCreate (fault : Bool) (st : DynStore) (req : Dict) : HandlerOut DynStore :=
  match dictGet? req "widgetId" with
  | none => ⟨.error (.keyError "widgetId"), [], []⟩
  | some wv =>
    match dictGet? req "requestId" with
    | none => ⟨.error (.keyError "requestId"), [], []⟩
    | some rv =>
      match makeWidgetFromRequestDynamo req with
      | .error e => ⟨.error e, [], [.processCreate wv rv]⟩
      | .ok item =>
        let log := [LogMsg.processCreate wv rv, .addToDynamo (dictGet? item "id")]
        match dictGet? item "id" with
        | none => ⟨.error (.clientError "ValidationException"), [.putItem item], log⟩
        | some idv =>
          if fault then ⟨.error (.clientError "InternalError"), [.putItem item], log⟩
          else ⟨.ok (dictSet st idv item), [.putItem item], log⟩

/-- Source `DynamoDBStorage._handle_delete_request`: `get_item` first; absent
items produce a warning and no delete call. -/
def dynHandleDelete (st : DynStore) (req : Dict) : HandlerOut DynStore :=
  match dictGet? req "widgetId" with
  | none => ⟨.error (.keyError "widgetId"), [], []⟩
  | some wv =>
    match dictGet? st wv with
    | none => ⟨.ok st, [.getItem wv], [.notFoundDynamo wv]⟩
    | some _ => ⟨.ok (dictRemove st wv), [.getItem wv, .deleteItem wv], [.deletedFromDynamo wv]⟩

/-- A message body as the consumer sees it after `json.loads`: invalid
JSON (raises `JSONDecodeError`), valid JSON that is not an object
(`.get` then raises `AttributeError`), or an object. -/
inductive Body where
  | invalid : Body
  | nonObject : Body
  | obj : Dict → Body
deriving DecidableEq, Repr

/-- Source `BaseStorage._parse_and_route` for the S3 strategy: parse, look the
`type` up in the handler dict, dispatch.  An unhashable `type` value (a
list) makes `handlers.get` raise `TypeError`; an unknown or missing
`type` is logged as an error and nothing runs. -/
def routeS3 (fault : Bool) (st : S3Store) (body : Body) : HandlerOut S3Store :=
  match body with
  | .invalid => ⟨.error .jsonDecodeError, [], []⟩
  | .nonObject => ⟨.error .attributeError, [], []⟩
  | .obj fields =>
    match dictGet? fields "type" with
    | some (.varr _) => ⟨.error .typeError, [], []⟩
    | some (.vstr s) =>
      if s = "create" then s3HandleCreate fault st fields
      else if s = "delete" then s3HandleDelete st fields
      else if s = "update" then
        ⟨.ok st, [], [.updateNotImplemented (dictGet? fields "widgetId")]⟩
      else
        ⟨.ok st, [], [.unknownRequestType (some (.vstr s)) (dictGet? fields "requestId")]⟩
    | t => ⟨.ok st, [], [.unknownRequestType t (dictGet? fields "requestId")]⟩

/-- Source `BaseStorage._parse_and_route` for the DynamoDB strategy. -/
def routeDyn (fault : Bool) (st : DynStore) (body : Body) : HandlerOut DynStore :=
  match body with
  | .invalid => ⟨.error .jsonDecodeError, [], []⟩
  | .nonObject => ⟨.error .attributeError, [], []⟩
  | .obj fields =>
    match dictGet? fields "type" with
    | some (.varr _) => ⟨.error .typeError, [], []⟩
    | some (.vstr s) =>
      if s = "create" then dynHandleCreate fault st fields
      else if s = "delete" then dynHandleDelete st fields
      else if s = "update" then
        ⟨.ok st, [], [.updateNotImplemented (dictGet? fields "widgetId")]⟩
      else
        ⟨.ok st, [], [.unknownRequestType (some (.vstr s)) (dictGet? fields "requestId")]⟩
    | t => ⟨.ok st, [], [.unknownRequestType t (dictGet? fields "requestId")]⟩

/-- Which storage strategy `main` selected (`-d s3` or `-d dynamo`). -/
inductive Strategy where
  | s3 : Strategy
  | dynamo : Strategy
deriving DecidableEq, Repr

/-- The whole system's state: the request queue (the source bucket, in
listing order) and both backend stores. -/
structure SysState where
  queue : List (String × Body)
  s3Store : S3Store
  dynStore : DynStore
deriving DecidableEq, Repr

/-- Dispatch `storage_strategy.process_request` lifted to the system state. -/
def processSys (strat : Strategy) (fault : Bool) (st : SysState) (body : Body) :
    HandlerOut SysState :=
  match strat with
  | .s3 =>
    let h := routeS3 fault st.s3Store body
    ⟨h.res.map (fun s => { st with s3Store := s }), h.ops, h.log⟩
  | .dynamo =>
    let h := routeDyn fault st.dynStore body
    ⟨h.res.map (fun d => { st with dynStore := d }), h.ops, h.log⟩

/-- The result of one iteration of `main`'s polling loop: the new
system state, the calls issued, the log lines, and the sleep performed
at the end of the iteration (in milliseconds). -/
structure StepOut where
  state : SysState
  ops : List Op
  log : List LogMsg
  sleepMs : Nat
deriving DecidableEq, Repr

/-- One iteration of `main`'s polling loop: fetch the first message (if
any), process it, then acknowledge or classify the exception exactly as
the `except` chain does — `JSONDecodeError`: delete the poison message;
`ClientError`: keep the message and back off 1 s; anything else: delete
the message and back off 1 s. -/
def consumerStep (strat : Strategy) (fault : Bool) (st : SysState) : StepOut :=
  match st.queue with
  | [] => ⟨st, [], [], 100⟩
  | (key, body) :: rest =>
    let p := processSys strat fault st body
    let found := LogMsg.foundRequest key
    match p.res with
    | .ok st2 =>
      ⟨{ st2 with queue := rest }, p.ops ++ [.srcDelete key],
       found :: (p.log ++ [.processedAndDeleted key]), 0⟩
    | .error .jsonDecodeError =>
      ⟨{ st with queue := rest }, p.ops ++ [.srcDelete key],
       found :: (p.log ++ [.parseFailure key]), 0⟩
    | .error (.clientError c) =>
      ⟨st, p.ops, found :: (p.log ++ [.awsClientError key c]), 1000⟩
    | .error _ =>
      ⟨{ st with queue := rest }, p.ops ++ [.srcDelete key],
       found :: (p.log ++ [.unhandledError key]), 1000⟩

/-- The create-request fixture of the repository's test suite, shortened. -/
def reqMary : Dict :=
  [("type", .vstr "create"), ("requestId", .vstr "r1"), ("widgetId", .vstr "w1"),
   ("owner", .vstr "Mary Matthews"), ("label", .vstr "L"),
   ("otherAttributes", .varr [[("name", "color"), ("value", "red")]])]

/-- A one-message system state, for concrete runs. -/
def sys1 (b : Body) : SysState :=
  ⟨[("m1.json", b)], [], []⟩

/-! ### Spec-side definitions and proof helpers -/

/-- Keys the transformers drop (`type`, `requestId`). -/
def keepKey (k : String) : Bool :=
  if k = "type" ∨ k = "requestId" then false else true

/-- The rename both transformers apply (`widgetId` → `id`). -/
def renameKey (k : String) : String :=
  if k = "widgetId" then "id" else k

/-- Modelled from the spec: `toDocumentWidget(request)` as §4.3 words
it — drop `type`/`requestId`, rename `widgetId` to `id`, pass every
other field through unmodified, preserving `otherAttributes` nested.
This is the refinement counterpart that `makeWidgetFromRequest` (the
source transformer) is compared against. -/
def toDocumentWidgetSpec (req : Dict) : Dict :=
  req.filterMap (fun kv =>
    if kv.1 = "type" ∨ kv.1 = "requestId" then none
    else if kv.1 = "widgetId" then some ("id", kv.2)
    else some kv)

/-- The fields of the spec's Request data model (§3). -/
def requestFields : List String :=
  ["type", "requestId", "widgetId", "owner", "label", "description", "otherAttributes"]

/-- A valid `create` request per the spec's data model: a JSON object
whose keys are drawn from §3's field list (each at most once, as in any
parsed JSON object), with `type = "create"` and the required `widgetId`
and `requestId` present. -/
def validCreateRequest (req : Dict) : Prop :=
  (keysOf req).Nodup ∧ (∀ k ∈ keysOf req, k ∈ requestFields) ∧
    dictGet? req "type" = some (.vstr "create") ∧
    (dictGet? req "widgetId").isSome = true ∧ (dictGet? req "requestId").isSome = true

instance (req : Dict) : Decidable (validCreateRequest req) := by
  unfold validCreateRequest; infer_instance

/-- The request's `type` is unknown or missing in the router's sense:
absent, null, or a string other than the three handler keys. -/
def unknownType (fields : Dict) : Bool :=
  match dictGet? fields "type" with
  | none => true
  | some .vnull => true
  | some (.vstr s) =>
    if s = "create" ∨ s = "delete" ∨ s = "update" then false else true
  | some (.varr _) => false

/-- The names of the well-formed `{name, value}` entries of one
`otherAttributes` array, in order. -/
def attrNames (objs : List (List (String × String))) : List String :=
  objs.filterMap (fun obj => (attrPair? obj).map Prod.fst)

/-- All attribute names the flattening of `req` would assign. -/
def allAttrNames : Dict → List String
  | [] => []
  | kv :: rest =>
    if kv.1 = "otherAttributes" then
      (match kv.2 with
       | .varr objs => attrNames objs ++ allAttrNames rest
       | _ => allAttrNames rest)
    else allAttrNames rest

/-- The top-level keys the flattened widget receives from the request's
own fields (everything kept and not `otherAttributes`, renamed). -/
def topRenamedKeys (req : Dict) : List String :=
  req.filterMap (fun kv =>
    if keepKey kv.1 = true ∧ ¬kv.1 = "otherAttributes" then some (renameKey kv.1) else none)

/-- The keys the S3 transformer writes, in writing order. -/
def renamedKeptKeys (req : Dict) : List String :=
  req.filterMap (fun kv => if keepKey kv.1 = true then some (renameKey kv.1) else none)

/-- No `otherAttributes` entry is named `type` or `requestId`. -/
def noReservedAttrNames (req : Dict) : Bool :=
  decide ("type" ∉ allAttrNames req) && decide ("requestId" ∉ allAttrNames req)

/-- A valid create request whose `otherAttributes` entry is named
`type`: flattening promotes it back to a top-level `type` key. -/
def reqTypeAttr : Dict :=
  [("type", .vstr "create"), ("requestId", .vstr "r2"), ("widgetId", .vstr "w2"),
   ("otherAttributes", .varr [[("name", "type"), ("value", "x")]])]

/-- The flattened widget the table sink persists for the test-suite
create request. -/
def widgetMaryDyn : Dict :=
  [("id", .vstr "w1"), ("owner", .vstr "Mary Matthews"), ("label", .vstr "L"),
   ("color", .vstr "red")]

/-- A valid create request with two `otherAttributes` entries sharing
the name `a`: the later entry overwrites the earlier one. -/
def reqDupAttr : Dict :=
  [("type", .vstr "create"), ("requestId", .vstr "r3"), ("widgetId", .vstr "w3"),
   ("otherAttributes", .varr [[("name", "a"), ("value", "1")], [("name", "a"), ("value", "2")]])]

/-- A create request carrying an extra top-level `id` field after
`widgetId`: the second assignment overwrites the widget's `id`. -/
def reqShadowId : Dict :=
  [("type", .vstr "create"), ("requestId", .vstr "r4"), ("widgetId", .vstr "w"),
   ("id", .vstr "X")]

/-- A delete request for the same `widgetId`, also without an owner. -/
def reqShadowDelete : Dict :=
  [("type", .vstr "delete"), ("widgetId", .vstr "w")]

/-- An ownerless create request, as `reqShadowId` but without the
shadowing `id` field. -/
def reqNoOwnerCreate : Dict :=
  [("type", .vstr "create"), ("requestId", .vstr "r5"), ("widgetId", .vstr "w5")]

/-- The matching ownerless delete request. -/
def reqNoOwnerDelete : Dict :=
  [("type", .vstr "delete"), ("widgetId", .vstr "w5")]

/-! ### Concrete fixtures evaluate as expected -/

example : makeWidgetFromRequest reqMary =
    [("id", .vstr "w1"), ("owner", .vstr "Mary Matthews"), ("label", .vstr "L"),
     ("otherAttributes", .varr [[("name", "color"), ("value", "red")]])] := by decide

example : makeWidgetFromRequestDynamo reqMary = .ok widgetMaryDyn := by decide

example : kebabOwner (.vstr "Mary Matthews") = .ok "mary-matthews" := by decide

example : kebabOwner .vnull = .ok "unknown-owner" := by decide

example : (consumerStep .s3 false (sys1 (.obj reqMary))).state.s3Store =
    [("widgets/mary-matthews/w1", makeWidgetFromRequest reqMary)] := by decide

example : (consumerStep .s3 false (sys1 .invalid)).ops = [.srcDelete "m1.json"] := by decide

example : (consumerStep .s3 true (sys1 (.obj reqMary))).sleepMs = 1000 ∧
    (consumerStep .s3 true (sys1 (.obj reqMary))).state = sys1 (.obj reqMary) := by decide

/-! ### Dictionary lemmas -/

@[simp] theorem keysOf_nil {κ α : Type} : keysOf ([] : List (κ × α)) = [] := rfl

@[simp] theorem keysOf_cons {κ α : Type} (kv : κ × α) (rest : List (κ × α)) :
    keysOf (kv :: rest) = kv.1 :: keysOf rest := rfl

@[simp] theorem keysOf_append {κ α : Type} (l1 l2 : List (κ × α)) :
    keysOf (l1 ++ l2) = keysOf l1 ++ keysOf l2 := by
  simp [keysOf]

theorem dictGet?_dictSet_self {κ α : Type} [DecidableEq κ] (w : List (κ × α)) (k : κ) (v : α) :
    dictGet? (dictSet w k v) k = some v := by
  induction w with
  | nil => simp [dictSet, dictGet?]
  | cons kv rest ih =>
    by_cases h : kv.1 = k
    · simp [dictSet, h, dictGet?]
    · simp [dictSet, h, dictGet?, ih]

theorem dictGet?_dictSet_ne {κ α : Type} [DecidableEq κ] (w : List (κ × α)) {k k' : κ} (v : α)
    (h : k' ≠ k) : dictGet? (dictSet w k v) k' = dictGet? w k' := by
  induction w with
  | nil => simp [dictSet, dictGet?, Ne.symm h]
  | cons kv rest ih =>
    by_cases hk : kv.1 = k
    · simp [dictSet, hk, dictGet?, Ne.symm h]
    · simp only [dictSet, if_neg hk, dictGet?, ih]

theorem dictSet_of_not_mem {κ α : Type} [DecidableEq κ] {w : List (κ × α)} {k : κ} (v : α)
    (h : k ∉ keysOf w) : dictSet w k v = w ++ [(k, v)] := by
  induction w with
  | nil => simp [dictSet]
  | cons kv rest ih =>
    simp only [keysOf_cons, List.mem_cons] at h
    push_neg at h
    simp [dictSet, Ne.symm h.1, ih h.2]

theorem mem_keys_dictSet {κ α : Type} [DecidableEq κ] {w : List (κ × α)} {k x : κ} {v : α}
    (h : x ∈ keysOf (dictSet w k v)) : x ∈ keysOf w ∨ x = k := by
  induction w with
  | nil => simp [dictSet] at h; simp [h]
  | cons kv rest ih =>
    by_cases hk : kv.1 = k
    · simp [dictSet, hk] at h
      rcases h with h | h
      · right; exact h
      · left; simp [hk, h]
    · simp [dictSet, hk] at h
      rcases h with h | h
      · left; simp [h]
      · rcases ih h with h2 | h2
        · left; simp [h2]
        · right; exact h2

theorem dictGet?_filter {κ α : Type} [DecidableEq κ] (p : κ × α → Bool)
    {w : List (κ × α)} {n : κ} {u : α}
    (h : dictGet? w n = some u) (hp : p (n, u) = true) :
    dictGet? (w.filter p) n = some u := by
  induction w with
  | nil => simp [dictGet?] at h
  | cons kv rest ih =>
    by_cases hk : kv.1 = n
    · rw [dictGet?] at h
      rw [if_pos hk] at h
      have hkv : kv = (n, u) := by
        obtain ⟨a, b⟩ := kv
        simp at hk h
        simp [hk, h]
      subst hkv
      simp [List.filter_cons, hp, dictGet?]
    · rw [dictGet?] at h
      rw [if_neg hk] at h
      cases hpkv : p kv
      · simp [List.filter_cons, hpkv, ih h]
      · simp [List.filter_cons, hpkv, dictGet?, hk, ih h]

/-! ### The S3 transformer refines the spec's toDocumentWidget -/

theorem makeWidgetCore_cons (k : String) (v : JVal) (rest w : Dict) :
    makeWidgetCore ((k, v) :: rest) w =
      if keepKey k = true then makeWidgetCore rest (dictSet w (renameKey k) v)
      else makeWidgetCore rest w := by
  by_cases h1 : k = "type" ∨ k = "requestId"
  · simp [makeWidgetCore, keepKey, h1]
  · by_cases h2 : k = "widgetId" <;>
      simp [makeWidgetCore, keepKey, renameKey, h1, h2]

theorem toDocumentWidgetSpec_cons (k : String) (v : JVal) (rest : Dict) :
    toDocumentWidgetSpec ((k, v) :: rest) =
      if keepKey k = true then (renameKey k, v) :: toDocumentWidgetSpec rest
      else toDocumentWidgetSpec rest := by
  by_cases h1 : k = "type" ∨ k = "requestId"
  · simp [toDocumentWidgetSpec, keepKey, h1]
  · by_cases h2 : k = "widgetId" <;>
      simp [toDocumentWidgetSpec, keepKey, renameKey, h1, h2, List.filterMap_cons]

theorem renamedKeptKeys_cons (k : String) (v : JVal) (rest : Dict) :
    renamedKeptKeys ((k, v) :: rest) =
      if keepKey k = true then renameKey k :: renamedKeptKeys rest
      else renamedKeptKeys rest := by
  by_cases h : keepKey k = true <;> simp [renamedKeptKeys, List.filterMap_cons, h]

theorem makeWidgetCore_eq_append (req : Dict) : ∀ w : Dict,
    (keysOf w ++ renamedKeptKeys req).Nodup →
    makeWidgetCore req w = w ++ toDocumentWidgetSpec req := by
  induction req with
  | nil =>
    intro w _
    simp [makeWidgetCore, toDocumentWidgetSpec]
  | cons kv rest ih =>
    intro w h
    obtain ⟨k, v⟩ := kv
    rw [renamedKeptKeys_cons] at h
    by_cases hk : keepKey k = true
    · rw [if_pos hk] at h
      have hdisj := (List.nodup_append.mp h).2.2
      have hfresh : renameKey k ∉ keysOf w := fun hmem =>
        hdisj hmem (List.mem_cons_self _ _)
      rw [makeWidgetCore_cons, if_pos hk, dictSet_of_not_mem v hfresh,
        toDocumentWidgetSpec_cons, if_pos hk]
      rw [ih (w ++ [(renameKey k, v)])]
      · rw [List.append_assoc, List.singleton_append]
      · have e1 : keysOf (w ++ [(renameKey k, v)]) = keysOf w ++ [renameKey k] := by
          rw [keysOf_append]
          rfl
        rw [e1, List.append_assoc, List.singleton_append]
        exact h
    · rw [if_neg hk] at h
      rw [makeWidgetCore_cons, if_neg hk, toDocumentWidgetSpec_cons, if_neg hk]
      exact ih w h

theorem makeWidgetFromRequest_eq_spec {req : Dict} (h : (renamedKeptKeys req).Nodup) :
    makeWidgetFromRequest req = toDocumentWidgetSpec req := by
  have := makeWidgetCore_eq_append req [] (by simpa using h)
  simpa [makeWidgetFromRequest] using this

theorem renamedKeptKeys_eq_map_filter (req : Dict) :
    renamedKeptKeys req = ((keysOf req).filter keepKey).map renameKey := by
  induction req with
  | nil => rfl
  | cons kv rest ih =>
    obtain ⟨k, v⟩ := kv
    rw [renamedKeptKeys_cons]
    by_cases h : keepKey k = true
    · rw [if_pos h]
      simp [keysOf_cons, List.filter_cons, h, ih]
    · rw [if_neg h]
      simp [keysOf_cons, List.filter_cons, h, ih]

theorem renameKey_inj_on_fields :
    ∀ x ∈ requestFields, ∀ y ∈ requestFields,
      keepKey x = true → keepKey y = true → renameKey x = renameKey y → x = y := by
  decide

theorem renameKey_inj_of_ne_id {x y : String} (hx : x ≠ "id") (hy : y ≠ "id")
    (h : renameKey x = renameKey y) : x = y := by
  unfold renameKey at h
  by_cases h1 : x = "widgetId" <;> by_cases h2 : y = "widgetId" <;> simp_all

theorem renamedKeptKeys_nodup_of_fields {req : Dict} (hnd : (keysOf req).Nodup)
    (hf : ∀ k ∈ keysOf req, k ∈ requestFields) : (renamedKeptKeys req).Nodup := by
  rw [renamedKeptKeys_eq_map_filter]
  refine List.Nodup.map_on ?_ (hnd.filter keepKey)
  intro x hx y hy hxy
  have hx2 := List.mem_filter.mp hx
  have hy2 := List.mem_filter.mp hy
  exact renameKey_inj_on_fields x (hf x hx2.1) y (hf y hy2.1) hx2.2 hy2.2 hxy

theorem renamedKeptKeys_nodup_of_no_id {req : Dict} (hnd : (keysOf req).Nodup)
    (hid : "id" ∉ keysOf req) : (renamedKeptKeys req).Nodup := by
  rw [renamedKeptKeys_eq_map_filter]
  refine List.Nodup.map_on ?_ (hnd.filter keepKey)
  intro x hx y hy hxy
  have hx2 := List.mem_filter.mp hx
  have hy2 := List.mem_filter.mp hy
  have hxid : x ≠ "id" := fun h => hid (h ▸ hx2.1)
  have hyid : y ≠ "id" := fun h => hid (h ▸ hy2.1)
  exact renameKey_inj_of_ne_id hxid hyid hxy

theorem spec_lookup_id {req : Dict} (h : "id" ∉ keysOf req) :
    dictGet? (toDocumentWidgetSpec req) "id" = dictGet? req "widgetId" := by
  induction req with
  | nil => rfl
  | cons kv rest ih =>
    obtain ⟨k, v⟩ := kv
    simp only [keysOf_cons, List.mem_cons] at h
    push_neg at h
    obtain ⟨hkid, hrest⟩ := h
    rw [toDocumentWidgetSpec_cons]
    by_cases hk : keepKey k = true
    · rw [if_pos hk]
      by_cases hw : k = "widgetId"
      · simp [hw, renameKey, dictGet?]
      · have hrk : renameKey k = k := by simp [renameKey, hw]
        rw [hrk]
        simp only [dictGet?]
        rw [if_neg (Ne.symm hkid), if_neg hw]
        exact ih hrest
    · rw [if_neg hk]
      have hw : k ≠ "widgetId" := by
        intro hkw
        simp [keepKey, hkw] at hk
      simp only [dictGet?]
      rw [if_neg hw]
      exact ih hrest

/-! ### Key provenance of the transformers -/

theorem keepKey_spec {k : String} (hk : keepKey k = true) : k ≠ "type" ∧ k ≠ "requestId" := by
  by_cases h : k = "type" ∨ k = "requestId"
  · simp [keepKey, h] at hk
  · push_neg at h
    exact h

theorem keepKey_of_ne {k : String} (h1 : k ≠ "type") (h2 : k ≠ "requestId") :
    keepKey k = true := by
  simp [keepKey, h1, h2]

theorem renameKey_ne_reserved {k : String} (hk : keepKey k = true) :
    renameKey k ≠ "type" ∧ renameKey k ≠ "requestId" := by
  unfold renameKey
  by_cases hw : k = "widgetId"
  · simp [hw]
  · simp only [if_neg hw]
    exact keepKey_spec hk

theorem keysOf_filter_subset {κ α : Type} (p : κ × α → Bool) {w : List (κ × α)} {x : κ}
    (h : x ∈ keysOf (w.filter p)) : x ∈ keysOf w := by
  simp only [keysOf, List.mem_map] at h ⊢
  obtain ⟨kv, hkv, hx⟩ := h
  exact ⟨kv, (List.mem_filter.mp hkv).1, hx⟩

theorem mem_keys_flattenAttrs (objs : List (List (String × String))) : ∀ {w : Dict} {x : String},
    x ∈ keysOf (flattenAttrs objs w) →
    x ∈ keysOf w ∨ ∃ obj ∈ objs, ∃ nv, attrPair? obj = some nv ∧ nv.1 = x := by
  induction objs with
  | nil =>
    intro w x h
    exact Or.inl h
  | cons obj rest ih =>
    intro w x h
    cases hap : attrPair? obj with
    | some nv =>
      simp only [flattenAttrs, hap] at h
      rcases ih h with h2 | h2
      · rcases mem_keys_dictSet h2 with h3 | h3
        · exact Or.inl h3
        · exact Or.inr ⟨obj, List.mem_cons_self _ _, nv, hap, h3.symm⟩
      · obtain ⟨o, ho, nv2, h4, h5⟩ := h2
        exact Or.inr ⟨o, List.mem_cons_of_mem _ ho, nv2, h4, h5⟩
    | none =>
      simp only [flattenAttrs, hap] at h
      rcases ih h with h2 | h2
      · exact Or.inl h2
      · obtain ⟨o, ho, nv2, h4, h5⟩ := h2
        exact Or.inr ⟨o, List.mem_cons_of_mem _ ho, nv2, h4, h5⟩

theorem mem_keys_makeWidgetCore (req : Dict) : ∀ {w : Dict} {x : String},
    x ∈ keysOf (makeWidgetCore req w) →
    x ∈ keysOf w ∨ ∃ kv ∈ req, keepKey kv.1 = true ∧ renameKey kv.1 = x := by
  induction req with
  | nil =>
    intro w x h
    exact Or.inl h
  | cons kv rest ih =>
    intro w x h
    obtain ⟨k, v⟩ := kv
    rw [makeWidgetCore_cons] at h
    by_cases hk : keepKey k = true
    · rw [if_pos hk] at h
      rcases ih h with h2 | h2
      · rcases mem_keys_dictSet h2 with h3 | h3
        · exact Or.inl h3
        · exact Or.inr ⟨(k, v), List.mem_cons_self _ _, hk, h3.symm⟩
      · obtain ⟨kv2, hm, hkeep, hren⟩ := h2
        exact Or.inr ⟨kv2, List.mem_cons_of_mem _ hm, hkeep, hren⟩
    · rw [if_neg hk] at h
      rcases ih h with h2 | h2
      · exact Or.inl h2
      · obtain ⟨kv2, hm, hkeep, hren⟩ := h2
        exact Or.inr ⟨kv2, List.mem_cons_of_mem _ hm, hkeep, hren⟩

theorem mem_keys_makeDynamoCore (req : Dict) : ∀ {w out : Dict} {x : String},
    makeDynamoCore req w = .ok out → x ∈ keysOf out →
    x ∈ keysOf w
    ∨ (∃ kv ∈ req, keepKey kv.1 = true ∧ kv.1 ≠ "otherAttributes" ∧ renameKey kv.1 = x)
    ∨ (∃ kv ∈ req, kv.1 = "otherAttributes" ∧ ∃ objs, kv.2 = JVal.varr objs ∧
        ∃ obj ∈ objs, ∃ nv, attrPair? obj = some nv ∧ nv.1 = x) := by
  induction req with
  | nil =>
    intro w out x hok h
    simp only [makeDynamoCore] at hok
    cases hok
    exact Or.inl h
  | cons kv rest ih =>
    intro w out x hok h
    obtain ⟨k, v⟩ := kv
    rw [makeDynamoCore] at hok
    by_cases h1 : k = "type" ∨ k = "requestId"
    · rw [if_pos h1] at hok
      rcases ih hok h with h2 | h2 | h2
      · exact Or.inl h2
      · obtain ⟨kv2, hm, rest2⟩ := h2
        exact Or.inr (Or.inl ⟨kv2, List.mem_cons_of_mem _ hm, rest2⟩)
      · obtain ⟨kv2, hm, rest2⟩ := h2
        exact Or.inr (Or.inr ⟨kv2, List.mem_cons_of_mem _ hm, rest2⟩)
    · rw [if_neg h1] at hok
      push_neg at h1
      have hkeep : keepKey k = true := keepKey_of_ne h1.1 h1.2
      by_cases h2 : k = "widgetId"
      · rw [if_pos h2] at hok
        rcases ih hok h with h3 | h3 | h3
        · rcases mem_keys_dictSet h3 with h4 | h4
          · exact Or.inl h4
          · refine Or.inr (Or.inl ⟨(k, v), List.mem_cons_self _ _, hkeep, ?_, ?_⟩)
            · simp [h2]
            · simp [renameKey, h2, h4.symm]
        · obtain ⟨kv2, hm, rest2⟩ := h3
          exact Or.inr (Or.inl ⟨kv2, List.mem_cons_of_mem _ hm, rest2⟩)
        · obtain ⟨kv2, hm, rest2⟩ := h3
          exact Or.inr (Or.inr ⟨kv2, List.mem_cons_of_mem _ hm, rest2⟩)
      · rw [if_neg h2] at hok
        by_cases h3 : k = "otherAttributes"
        · rw [if_pos h3] at hok
          cases v with
          | vnull => simp at hok
          | vstr s =>
            rcases ih hok h with h4 | h4 | h4
            · exact Or.inl h4
            · obtain ⟨kv2, hm, rest2⟩ := h4
              exact Or.inr (Or.inl ⟨kv2, List.mem_cons_of_mem _ hm, rest2⟩)
            · obtain ⟨kv2, hm, rest2⟩ := h4
              exact Or.inr (Or.inr ⟨kv2, List.mem_cons_of_mem _ hm, rest2⟩)
          | varr objs =>
            rcases ih hok h with h4 | h4 | h4
            · rcases mem_keys_flattenAttrs objs h4 with h5 | h5
              · exact Or.inl h5
              · obtain ⟨o, ho, nv, h6, h7⟩ := h5
                exact Or.inr (Or.inr ⟨(k, JVal.varr objs), List.mem_cons_self _ _, h3,
                  objs, rfl, o, ho, nv, h6, h7⟩)
            · obtain ⟨kv2, hm, rest2⟩ := h4
              exact Or.inr (Or.inl ⟨kv2, List.mem_cons_of_mem _ hm, rest2⟩)
            · obtain ⟨kv2, hm, rest2⟩ := h4
              exact Or.inr (Or.inr ⟨kv2, List.mem_cons_of_mem _ hm, rest2⟩)
        · rw [if_neg h3] at hok
          rcases ih hok h with h4 | h4 | h4
          · rcases mem_keys_dictSet h4 with h5 | h5
            · exact Or.inl h5
            · refine Or.inr (Or.inl ⟨(k, v), List.mem_cons_self _ _, hkeep, h3, ?_⟩)
              have hrk : renameKey k = k := by simp [renameKey, h2]
              simpa [hrk] using h5.symm
          · obtain ⟨kv2, hm, rest2⟩ := h4
            exact Or.inr (Or.inl ⟨kv2, List.mem_cons_of_mem _ hm, rest2⟩)
          · obtain ⟨kv2, hm, rest2⟩ := h4
            exact Or.inr (Or.inr ⟨kv2, List.mem_cons_of_mem _ hm, rest2⟩)

/-! ### Lookup behaviour of the flattening transformer -/

theorem attrNames_cons_some {obj : List (String × String)} {nv : String × String}
    (rest : List (List (String × String))) (hap : attrPair? obj = some nv) :
    attrNames (obj :: rest) = nv.1 :: attrNames rest := by
  simp [attrNames, List.filterMap_cons, hap]

theorem attrNames_cons_none {obj : List (String × String)}
    (rest : List (List (String × String))) (hap : attrPair? obj = none) :
    attrNames (obj :: rest) = attrNames rest := by
  simp [attrNames, List.filterMap_cons, hap]

theorem mem_attrNames_of_pair {objs : List (List (String × String))}
    {obj : List (String × String)} {n v : String}
    (ho : obj ∈ objs) (hap : attrPair? obj = some (n, v)) : n ∈ attrNames objs := by
  simp only [attrNames, List.mem_filterMap]
  exact ⟨obj, ho, by simp [hap]⟩

theorem flattenAttrs_lookup_preserve (objs : List (List (String × String))) :
    ∀ {w : Dict} {n : String}, n ∉ attrNames objs →
    dictGet? (flattenAttrs objs w) n = dictGet? w n := by
  induction objs with
  | nil =>
    intro w n _
    rfl
  | cons obj rest ih =>
    intro w n hn
    cases hap : attrPair? obj with
    | some nv =>
      rw [attrNames_cons_some rest hap, List.mem_cons] at hn
      push_neg at hn
      simp only [flattenAttrs, hap]
      rw [ih hn.2, dictGet?_dictSet_ne _ _ hn.1]
    | none =>
      rw [attrNames_cons_none rest hap] at hn
      simp only [flattenAttrs, hap]
      exact ih hn

theorem flattenAttrs_lookup_hit (objs : List (List (String × String))) :
    ∀ {w : Dict} {n v : String} {obj : List (String × String)},
    (attrNames objs).Nodup → obj ∈ objs → attrPair? obj = some (n, v) →
    dictGet? (flattenAttrs objs w) n = some (.vstr v) := by
  induction objs with
  | nil =>
    intro w n v obj _ h _
    simp at h
  | cons obj0 rest ih =>
    intro w n v obj hnd hmem hap
    rcases List.mem_cons.mp hmem with heq | hmem2
    · subst heq
      simp only [flattenAttrs, hap]
      rw [attrNames_cons_some rest hap] at hnd
      have hn : n ∉ attrNames rest := (List.nodup_cons.mp hnd).1
      rw [flattenAttrs_lookup_preserve rest hn, dictGet?_dictSet_self]
    · cases hap0 : attrPair? obj0 with
      | some nv0 =>
        simp only [flattenAttrs, hap0]
        rw [attrNames_cons_some rest hap0] at hnd
        exact ih (List.nodup_cons.mp hnd).2 hmem2 hap
      | none =>
        simp only [flattenAttrs, hap0]
        rw [attrNames_cons_none rest hap0] at hnd
        exact ih hnd hmem2 hap

theorem topRenamedKeys_cons_keep {k : String} (v : JVal) (rest : Dict)
    (hk : keepKey k = true) (hoa : k ≠ "otherAttributes") :
    topRenamedKeys ((k, v) :: rest) = renameKey k :: topRenamedKeys rest := by
  simp [topRenamedKeys, List.filterMap_cons, hk, hoa]

theorem topRenamedKeys_cons_skip {k : String} (v : JVal) (rest : Dict)
    (h : ¬(keepKey k = true ∧ ¬k = "otherAttributes")) :
    topRenamedKeys ((k, v) :: rest) = topRenamedKeys rest := by
  simp only [topRenamedKeys, List.filterMap_cons, if_neg h]

theorem makeDynamoCore_lookup_preserve (req : Dict) : ∀ {w out : Dict} {n : String},
    n ∉ topRenamedKeys req → n ∉ allAttrNames req →
    makeDynamoCore req w = .ok out → dictGet? out n = dictGet? w n := by
  induction req with
  | nil =>
    intro w out n _ _ hok
    simp only [makeDynamoCore] at hok
    cases hok
    rfl
  | cons kv rest ih =>
    intro w out n ht ha hok
    obtain ⟨k, v⟩ := kv
    rw [makeDynamoCore] at hok
    by_cases h1 : k = "type" ∨ k = "requestId"
    · rw [if_pos h1] at hok
      have hoa : k ≠ "otherAttributes" := by rcases h1 with h | h <;> simp [h]
      rw [topRenamedKeys_cons_skip v rest (by simp [keepKey, h1])] at ht
      simp only [allAttrNames, if_neg hoa] at ha
      exact ih ht ha hok
    · rw [if_neg h1] at hok
      push_neg at h1
      have hkeep : keepKey k = true := keepKey_of_ne h1.1 h1.2
      by_cases h2 : k = "widgetId"
      · rw [if_pos h2] at hok
        have hoa : k ≠ "otherAttributes" := by simp [h2]
        rw [topRenamedKeys_cons_keep v rest hkeep hoa, List.mem_cons] at ht
        push_neg at ht
        simp only [allAttrNames, if_neg hoa] at ha
        have hnid : n ≠ "id" := by
          have : renameKey k = "id" := by simp [renameKey, h2]
          exact this ▸ ht.1
        rw [ih ht.2 ha hok, dictGet?_dictSet_ne _ _ hnid]
      · rw [if_neg h2] at hok
        by_cases h3 : k = "otherAttributes"
        · rw [if_pos h3] at hok
          rw [topRenamedKeys_cons_skip v rest (by simp [h3])] at ht
          cases v with
          | vnull => simp at hok
          | vstr s =>
            simp only [allAttrNames, if_pos h3] at ha
            exact ih ht ha hok
          | varr objs =>
            simp only [allAttrNames, if_pos h3, List.mem_append] at ha
            push_neg at ha
            rw [ih ht ha.2 hok, flattenAttrs_lookup_preserve objs ha.1]
        · rw [if_neg h3] at hok
          rw [topRenamedKeys_cons_keep v rest hkeep h3, List.mem_cons] at ht
          push_neg at ht
          simp only [allAttrNames, if_neg h3] at ha
          have hnk : n ≠ k := by
            have : renameKey k = k := by simp [renameKey, h2]
            exact this ▸ ht.1
          rw [ih ht.2 ha hok, dictGet?_dictSet_ne _ _ hnk]

theorem makeDynamoCore_lookup_hit (req : Dict) : ∀ {w out : Dict} {n v : String},
    (allAttrNames req).Nodup → n ∉ topRenamedKeys req →
    (∃ kv ∈ req, kv.1 = "otherAttributes" ∧ ∃ objs, kv.2 = JVal.varr objs ∧
      ∃ obj ∈ objs, attrPair? obj = some (n, v)) →
    makeDynamoCore req w = .ok out → dictGet? out n = some (.vstr v) := by
  induction req with
  | nil =>
    intro w out n v _ _ hex _
    simp at hex
  | cons kv rest ih =>
    intro w out n v hnd ht hex hok
    obtain ⟨k, kval⟩ := kv
    rw [makeDynamoCore] at hok
    rcases hex with ⟨kv0, hmem, hoa0, objs0, hval, obj0, hobj, hap⟩
    rcases List.mem_cons.mp hmem with heq | hmem2
    · -- the head entry is the otherAttributes entry holding (n, v)
      have hk : k = "otherAttributes" := by
        have := hoa0
        rw [heq] at this
        exact this
      have hv : kval = JVal.varr objs0 := by
        have := hval
        rw [heq] at this
        exact this
      subst hk
      subst hv
      rw [if_neg (by simp), if_neg (by simp), if_pos rfl] at hok
      rw [topRenamedKeys_cons_skip _ rest (by simp)] at ht
      simp only [allAttrNames, if_pos rfl] at hnd
      have hndsplit := List.nodup_append.mp hnd
      have hnin : n ∈ attrNames objs0 := mem_attrNames_of_pair hobj hap
      have hnot : n ∉ allAttrNames rest := fun hmem3 => hndsplit.2.2 hnin hmem3
      rw [makeDynamoCore_lookup_preserve rest ht hnot hok]
      exact flattenAttrs_lookup_hit objs0 hndsplit.1 hobj hap
    · -- the entry is further on; process the head
      by_cases h1 : k = "type" ∨ k = "requestId"
      · rw [if_pos h1] at hok
        have hoa : k ≠ "otherAttributes" := by rcases h1 with h | h <;> simp [h]
        rw [topRenamedKeys_cons_skip kval rest (by simp [keepKey, h1])] at ht
        simp only [allAttrNames, if_neg hoa] at hnd
        exact ih hnd ht ⟨kv0, hmem2, hoa0, objs0, hval, obj0, hobj, hap⟩ hok
      · rw [if_neg h1] at hok
        push_neg at h1
        have hkeep : keepKey k = true := keepKey_of_ne h1.1 h1.2
        by_cases h2 : k = "widgetId"
        · rw [if_pos h2] at hok
          have hoa : k ≠ "otherAttributes" := by simp [h2]
          rw [topRenamedKeys_cons_keep kval rest hkeep hoa, List.mem_cons] at ht
          push_neg at ht
          simp only [allAttrNames, if_neg hoa] at hnd
          exact ih hnd ht.2 ⟨kv0, hmem2, hoa0, objs0, hval, obj0, hobj, hap⟩ hok
        · rw [if_neg h2] at hok
          by_cases h3 : k = "otherAttributes"
          · rw [if_pos h3] at hok
            rw [topRenamedKeys_cons_skip kval rest (by simp [h3])] at ht
            cases kval with
            | vnull => simp at hok
            | vstr s =>
              simp only [allAttrNames, if_pos h3] at hnd
              exact ih hnd ht ⟨kv0, hmem2, hoa0, objs0, hval, obj0, hobj, hap⟩ hok
            | varr objs =>
              simp only [allAttrNames, if_pos h3] at hnd
              exact ih (List.nodup_append.mp hnd).2.1 ht
                ⟨kv0, hmem2, hoa0, objs0, hval, obj0, hobj, hap⟩ hok
          · rw [if_neg h3] at hok
            rw [topRenamedKeys_cons_keep kval rest hkeep h3, List.mem_cons] at ht
            push_neg at ht
            simp only [allAttrNames, if_neg h3] at hnd
            exact ih hnd ht.2 ⟨kv0, hmem2, hoa0, objs0, hval, obj0, hobj, hap⟩ hok

theorem notEmptyVal_vstr {v : String} (h : v ≠ "") : notEmptyVal (.vstr v) = true := by
  simp [notEmptyVal, h]

theorem mem_allAttrNames_of {req : Dict} {kv : String × JVal}
    {objs : List (List (String × String))} {n : String}
    (hkv : kv ∈ req) (hoa : kv.1 = "otherAttributes") (hval : kv.2 = JVal.varr objs)
    (hn : n ∈ attrNames objs) : n ∈ allAttrNames req := by
  induction req with
  | nil => simp at hkv
  | cons kv0 rest ih =>
    rcases List.mem_cons.mp hkv with heq | hmem
    · subst heq
      simp only [allAttrNames, if_pos hoa, hval]
      exact List.mem_append_left _ hn
    · by_cases h0 : kv0.1 = "otherAttributes"
      · simp only [allAttrNames, if_pos h0]
        cases hv0 : kv0.2 with
        | varr objs0 =>
          simp only [hv0]
          exact List.mem_append_right _ (ih hmem)
        | vnull => simp only [hv0]; exact ih hmem
        | vstr s => simp only [hv0]; exact ih hmem
      · simp only [allAttrNames, if_neg h0]
        exact ih hmem

/-! ### Claim theorems -/

/-- Claim C4. For every valid create request, the document-shape widget equals
the request with the `type` and `requestId` fields dropped, the `widgetId`
field renamed to `id` (same value), and every other field — including the
nested `otherAttributes` sequence — passed through unmodified
(`toDocumentWidgetSpec` is that transformation, written from the spec's
words; the source transformer agrees with it, and in particular maps
`id` to the request's `widgetId` value). -/
theorem c4_document_widget_matches_spec {req : Dict} (h : validCreateRequest req) :
    makeWidgetFromRequest req = toDocumentWidgetSpec req ∧
    dictGet? (makeWidgetFromRequest req) "id" = dictGet? req "widgetId" := by
  obtain ⟨hnd, hf, _, _, _⟩ := h
  have hr := renamedKeptKeys_nodup_of_fields hnd hf
  have heq := makeWidgetFromRequest_eq_spec hr
  refine ⟨heq, ?_⟩
  rw [heq]
  apply spec_lookup_id
  intro hid
  exact absurd (hf _ hid) (by decide)

/-- Claim C4, witness. The test-suite create request is valid and its
document widget matches the spec transformation. -/
theorem c4_witness :
    validCreateRequest reqMary ∧
    makeWidgetFromRequest reqMary = toDocumentWidgetSpec reqMary ∧
    dictGet? (makeWidgetFromRequest reqMary) "id" = some (.vstr "w1") := by
  have h := @c4_document_widget_matches_spec reqMary (by decide)
  refine ⟨by decide, h.1, ?_⟩
  rw [h.2]
  decide

/-- Claim C2, counterexample. The claim says the persisted widget never
contains a key named `type` or `requestId`; but the flattened widget the
table sink persists for `reqTypeAttr` (a valid create request) contains
the key `type`, because flattening promotes an `otherAttributes` entry
named `type` to a top-level key. -/
theorem c2_counterexample :
    validCreateRequest reqTypeAttr ∧
    makeWidgetFromRequestDynamo reqTypeAttr =
      .ok [("id", JVal.vstr "w2"), ("type", JVal.vstr "x")] ∧
    "type" ∈ keysOf [("id", JVal.vstr "w2"), ("type", JVal.vstr "x")] := by
  refine ⟨by decide, by decide, by decide⟩

/-- Claim C2, amended. The document-shape widget never contains a key
named `type` or `requestId`; the flattened widget also never does,
provided no `otherAttributes` entry is itself named `type` or
`requestId` (flattening would promote such an entry to a top-level
key). -/
theorem c2_no_reserved_keys :
    (∀ (req : Dict) (x : String), x = "type" ∨ x = "requestId" →
      x ∉ keysOf (makeWidgetFromRequest req)) ∧
    (∀ (req out : Dict) (x : String), noReservedAttrNames req = true →
      makeWidgetFromRequestDynamo req = .ok out →
      x = "type" ∨ x = "requestId" → x ∉ keysOf out) := by
  constructor
  · intro req x hx hmem
    rcases mem_keys_makeWidgetCore req hmem with h | ⟨kv, _, hkeep, hren⟩
    · simp at h
    · rcases hx with hx | hx <;> subst hx
      · exact (renameKey_ne_reserved hkeep).1 hren
      · exact (renameKey_ne_reserved hkeep).2 hren
  · intro req out x hres hok hx hmem
    unfold makeWidgetFromRequestDynamo at hok
    cases hcore : makeDynamoCore req [] with
    | error e =>
      rw [hcore] at hok
      simp [Except.map] at hok
    | ok w0 =>
      rw [hcore] at hok
      simp only [Except.map] at hok
      cases hok
      have hmem0 : x ∈ keysOf w0 := keysOf_filter_subset _ hmem
      rcases mem_keys_makeDynamoCore req hcore hmem0 with
        h | ⟨kv, _, hkeep, _, hren⟩ | ⟨kv, hkv, hoa, objs, hval, obj, hobj, nv, hap, hnx⟩
      · simp at h
      · rcases hx with hx | hx <;> subst hx
        · exact (renameKey_ne_reserved hkeep).1 hren
        · exact (renameKey_ne_reserved hkeep).2 hren
      · simp only [noReservedAttrNames, Bool.and_eq_true, decide_eq_true_eq] at hres
        have hin : nv.1 ∈ allAttrNames req :=
          mem_allAttrNames_of hkv hoa hval (mem_attrNames_of_pair hobj hap)
        rcases hx with hx | hx <;> rw [hx] at hnx <;> rw [hnx] at hin
        · exact hres.1 hin
        · exact hres.2 hin

/-- Claim C2, witness. The test create request has no reserved attribute
names, and neither persisted shape contains `type` or `requestId`. -/
theorem c2_witness :
    noReservedAttrNames reqMary = true ∧
    makeWidgetFromRequestDynamo reqMary = .ok widgetMaryDyn ∧
    "type" ∉ keysOf (makeWidgetFromRequest reqMary) ∧
    "type" ∉ keysOf widgetMaryDyn := by
  refine ⟨by decide, by decide, ?_, ?_⟩
  · exact c2_no_reserved_keys.1 reqMary "type" (Or.inl rfl)
  · exact c2_no_reserved_keys.2 reqMary widgetMaryDyn "type" (by decide) (by decide) (Or.inl rfl)

/-- Claim C3, counterexample. The claim says that for every valid create
request and every `{name, value}` pair in `otherAttributes` with
non-empty value, the flattened output maps that name to that value.  In
`reqDupAttr` the pair `{a, 1}` has a non-empty value, yet the flattened
output maps `a` to `2` (the later duplicate wins). -/
theorem c3_counterexample :
    validCreateRequest reqDupAttr ∧
    (∃ obj ∈ [[("name", "a"), ("value", "1")], [("name", "a"), ("value", "2")]],
      attrPair? obj = some ("a", "1")) ∧
    ("1" : String) ≠ "" ∧
    makeWidgetFromRequestDynamo reqDupAttr = .ok [("id", JVal.vstr "w3"), ("a", JVal.vstr "2")] ∧
    dictGet? [("id", JVal.vstr "w3"), ("a", JVal.vstr "2")] "a" ≠ some (JVal.vstr "1") := by
  refine ⟨by decide, ⟨[("name", "a"), ("value", "1")], by decide, by decide⟩,
    by decide, by decide, by decide⟩

/-- Claim C3, amended. For every create request whose flattening
succeeds: the flattened widget contains no key whose value is the empty
string (nor a null value); and for every `{name, value}` pair in an
`otherAttributes` entry whose value is non-empty, the output maps that
name to that value — provided the attribute names are pairwise distinct
and none of them collides with a key the widget receives from the
request's own fields (after the `widgetId` → `id` rename), since a
colliding assignment would overwrite it. -/
theorem c3_flattened_widget_values {req out : Dict}
    (hok : makeWidgetFromRequestDynamo req = .ok out) :
    (∀ kv ∈ out, kv.2 ≠ JVal.vstr "" ∧ kv.2 ≠ JVal.vnull) ∧
    (∀ n v : String, (allAttrNames req).Nodup → n ∉ topRenamedKeys req →
      (∃ kv ∈ req, kv.1 = "otherAttributes" ∧ ∃ objs, kv.2 = JVal.varr objs ∧
        ∃ obj ∈ objs, attrPair? obj = some (n, v)) →
      v ≠ "" → dictGet? out n = some (.vstr v)) := by
  unfold makeWidgetFromRequestDynamo at hok
  cases hcore : makeDynamoCore req [] with
  | error e =>
    rw [hcore] at hok
    simp [Except.map] at hok
  | ok w0 =>
    rw [hcore] at hok
    simp only [Except.map] at hok
    cases hok
    constructor
    · intro kv hkv
      have hp := (List.mem_filter.mp hkv).2
      unfold notEmptyVal at hp
      constructor
      · intro h
        rw [h] at hp
        simp at hp
      · intro h
        rw [h] at hp
        simp at hp
    · intro n v hnd ht hex hv
      have hw0 : dictGet? w0 n = some (.vstr v) :=
        makeDynamoCore_lookup_hit req hnd ht hex hcore
      exact dictGet?_filter _ hw0 (notEmptyVal_vstr hv)

/-- Claim C3, witness. The test create request flattens successfully, and
the `{color, red}` attribute appears as `color = red` in the output
while no empty-string values occur. -/
theorem c3_witness :
    makeWidgetFromRequestDynamo reqMary = .ok widgetMaryDyn ∧
    (allAttrNames reqMary).Nodup ∧
    "color" ∉ topRenamedKeys reqMary ∧
    ("red" : String) ≠ "" ∧
    dictGet? widgetMaryDyn "color" = some (.vstr "red") ∧
    (∀ kv ∈ widgetMaryDyn, kv.2 ≠ JVal.vstr "" ∧ kv.2 ≠ JVal.vnull) := by
  have h := @c3_flattened_widget_values reqMary widgetMaryDyn (by decide)
  refine ⟨by decide, by decide, by decide, by decide, ?_, h.1⟩
  exact h.2 "color" "red" (by decide) (by decide)
    ⟨("otherAttributes", .varr [[("name", "color"), ("value", "red")]]), by decide, by decide,
      [[("name", "color"), ("value", "red")]], by decide,
      [("name", "color"), ("value", "red")], by decide, by decide⟩
    (by decide)

/-- Claim C5, counterexample. The claim says the document sink writes at
the storage key `owner-slug/id`; but for the test create request the
only write issued goes to `widgets/mary-matthews/w1` — the code prefixes
the hard-wired `widgets/` segment, so the key is not `mary-matthews/w1`. -/
theorem c5_counterexample :
    (s3HandleCreate false [] reqMary).ops = [Op.putObject "widgets/mary-matthews/w1"] ∧
    ("widgets/mary-matthews/w1" : String) ≠ "mary-matthews/w1" := by
  refine ⟨by decide, by decide⟩

/-- Claim C5, amended. For every create request (whatever the current
store contents — so: unconditionally, last write wins, no version
check), the document sink writes the widget at `widgets/owner-slug/id`,
and the table sink writes the item keyed on its `id` attribute alone. -/
theorem c5_create_keys :
    (∀ (store : S3Store) (req : Dict) (wv rv : JVal) (ow : String) (idv : JVal),
      dictGet? req "widgetId" = some wv →
      dictGet? req "requestId" = some rv →
      kebabOwner (dictGetD req "owner" .vnull) = .ok ow →
      dictGet? (makeWidgetFromRequest req) "id" = some idv →
      (s3HandleCreate false store req).res =
        .ok (dictSet store ("widgets/" ++ ow ++ "/" ++ pyStr idv) (makeWidgetFromRequest req)) ∧
      (s3HandleCreate false store req).ops =
        [.putObject ("widgets/" ++ ow ++ "/" ++ pyStr idv)]) ∧
    (∀ (store : DynStore) (req : Dict) (wv rv : JVal) (item : Dict) (idv : JVal),
      dictGet? req "widgetId" = some wv →
      dictGet? req "requestId" = some rv →
      makeWidgetFromRequestDynamo req = .ok item →
      dictGet? item "id" = some idv →
      (dynHandleCreate false store req).res = .ok (dictSet store idv item) ∧
      (dynHandleCreate false store req).ops = [.putItem item]) := by
  constructor
  · intro store req wv rv ow idv hw hr hk hid
    simp [s3HandleCreate, hw, hr, hk, hid]
  · intro store req wv rv item idv hw hr hitem hid
    simp [dynHandleCreate, hw, hr, hitem, hid]

/-- Claim C5, witness. Both sinks at the test create request, against
non-empty stores (showing the write needs no precondition). -/
theorem c5_witness :
    dictGet? reqMary "widgetId" = some (.vstr "w1") ∧
    kebabOwner (dictGetD reqMary "owner" .vnull) = .ok "mary-matthews" ∧
    (s3HandleCreate false [("widgets/mary-matthews/w1", [])] reqMary).res =
      .ok (dictSet [("widgets/mary-matthews/w1", [])] "widgets/mary-matthews/w1"
        (makeWidgetFromRequest reqMary)) ∧
    (dynHandleCreate false [] reqMary).res =
      .ok (dictSet [] (JVal.vstr "w1") widgetMaryDyn) := by
  refine ⟨by decide, by decide, ?_, ?_⟩
  · exact ((c5_create_keys.1 [("widgets/mary-matthews/w1", [])] reqMary
      (.vstr "w1") (.vstr "r1") "mary-matthews" (.vstr "w1")
      (by decide) (by decide) (by decide) (by decide)).1)
  · exact ((c5_create_keys.2 [] reqMary (.vstr "w1") (.vstr "r1") widgetMaryDyn (.vstr "w1")
      (by decide) (by decide) (by decide) (by decide)).1)

theorem kebabOwner_delete_default {reqc reqd : Dict} {ow : String}
    (h : dictGet? reqc "owner" = dictGet? reqd "owner")
    (hk : kebabOwner (dictGetD reqc "owner" .vnull) = .ok ow) :
    kebabOwner (dictGetD reqd "owner" (.vstr "")) = .ok ow := by
  unfold dictGetD at hk ⊢
  cases hc : dictGet? reqc "owner" with
  | none =>
    rw [hc] at hk h
    rw [← h]
    simp only [Option.getD_none] at hk ⊢
    simp only [kebabOwner, Except.ok.injEq] at hk
    simp [kebabOwner, hk]
  | some v =>
    rw [hc] at hk h
    rw [← h]
    simpa using hk

theorem makeWidget_lookup_id {req : Dict} (hnd : (keysOf req).Nodup)
    (hid : "id" ∉ keysOf req) :
    dictGet? (makeWidgetFromRequest req) "id" = dictGet? req "widgetId" := by
  rw [makeWidgetFromRequest_eq_spec (renamedKeptKeys_nodup_of_no_id hnd hid)]
  exact spec_lookup_id hid

/-- Claim C10, counterexample. The claim says that for every pair of
requests with the same `widgetId` and the same owner field the delete
handler reconstructs exactly the key the create handler writes to.
`reqShadowId` and `reqShadowDelete` agree on `widgetId` (`w`) and owner
(both absent), yet create writes `widgets/unknown-owner/X` — its extra
top-level `id` field overwrites the widget's `id` — while delete
targets `widgets/unknown-owner/w`. -/
theorem c10_counterexample :
    dictGet? reqShadowId "widgetId" = dictGet? reqShadowDelete "widgetId" ∧
    dictGet? reqShadowId "owner" = dictGet? reqShadowDelete "owner" ∧
    (s3HandleCreate false [] reqShadowId).ops = [Op.putObject "widgets/unknown-owner/X"] ∧
    (s3HandleDelete [] reqShadowDelete).ops = [Op.headObject "widgets/unknown-owner/w"] ∧
    ("widgets/unknown-owner/X" : String) ≠ "widgets/unknown-owner/w" := by
  refine ⟨by decide, by decide, by decide, by decide, by decide⟩

/-- Claim C10, amended. For every pair of requests with the same
`widgetId` value and the same owner field (including both lacking an
owner: create's missing-owner default `None` and delete's default `""`
both normalize to the sentinel slug `unknown-owner`), and whose create
request has no separate top-level `id` field, the S3 delete handler
reconstructs exactly the storage key the create handler writes to. -/
theorem c10_delete_key_matches_create {reqc reqd : Dict} {wv : JVal} {ow : String}
    (hndc : (keysOf reqc).Nodup) (hidc : "id" ∉ keysOf reqc)
    (hwc : dictGet? reqc "widgetId" = some wv)
    (hwd : dictGet? reqd "widgetId" = some wv)
    (hown : dictGet? reqc "owner" = dictGet? reqd "owner")
    (hkeb : kebabOwner (dictGetD reqc "owner" .vnull) = .ok ow) :
    ∀ (rv : JVal) (stc std : S3Store), dictGet? reqc "requestId" = some rv →
      (s3HandleCreate false stc reqc).ops =
        [.putObject ("widgets/" ++ ow ++ "/" ++ pyStr wv)] ∧
      ((s3HandleDelete std reqd).ops = [.headObject ("widgets/" ++ ow ++ "/" ++ pyStr wv)] ∨
        (s3HandleDelete std reqd).ops =
          [.headObject ("widgets/" ++ ow ++ "/" ++ pyStr wv),
           .deleteObject ("widgets/" ++ ow ++ "/" ++ pyStr wv)]) := by
  intro rv stc std hrc
  have hkd := kebabOwner_delete_default hown hkeb
  have hidlook : dictGet? (makeWidgetFromRequest reqc) "id" = some wv := by
    rw [makeWidget_lookup_id hndc hidc]
    exact hwc
  constructor
  · simp [s3HandleCreate, hwc, hrc, hkeb, hidlook]
  · cases hlook : dictGet? std ("widgets/" ++ ow ++ "/" ++ pyStr wv) with
    | none =>
      left
      simp [s3HandleDelete, hwd, hkd, hlook]
    | some w =>
      right
      simp [s3HandleDelete, hwd, hkd, hlook]

/-- Claim C10, witness. An ownerless create/delete pair: both handlers
compute the key `widgets/unknown-owner/w5`. -/
theorem c10_witness :
    (keysOf reqNoOwnerCreate).Nodup ∧ "id" ∉ keysOf reqNoOwnerCreate ∧
    dictGet? reqNoOwnerCreate "owner" = dictGet? reqNoOwnerDelete "owner" ∧
    (s3HandleCreate false [] reqNoOwnerCreate).ops = [Op.putObject "widgets/unknown-owner/w5"] ∧
    (s3HandleDelete [] reqNoOwnerDelete).ops = [Op.headObject "widgets/unknown-owner/w5"] := by
  have h := @c10_delete_key_matches_create reqNoOwnerCreate reqNoOwnerDelete
    (.vstr "w5") "unknown-owner" (by decide) (by decide) (by decide) (by decide)
    (by decide) (by decide) (.vstr "r5") [] [] (by decide)
  refine ⟨by decide, by decide, by decide, ?_, ?_⟩
  · exact h.1.trans (by decide)
  · rcases h.2 with h2 | h2
    · exact h2.trans (by decide)
    · have hc : (s3HandleDelete [] reqNoOwnerDelete).ops =
        [Op.headObject "widgets/unknown-owner/w5"] := by decide
      rw [hc] at h2
      exact absurd h2 (by decide)

/-! ### The handlers never touch the message source -/

theorem srcDelete_not_in_s3Create (fault : Bool) (store : S3Store) (req : Dict) (k : String) :
    Op.srcDelete k ∉ (s3HandleCreate fault store req).ops := by
  simp only [s3HandleCreate]
  cases h1 : dictGet? req "widgetId" with
  | none => simp
  | some wv =>
    cases h2 : dictGet? req "requestId" with
    | none => simp
    | some rv =>
      cases h3 : kebabOwner (dictGetD req "owner" .vnull) with
      | error e => simp
      | ok ow =>
        cases h4 : dictGet? (makeWidgetFromRequest req) "id" with
        | none => simp [h4]
        | some idv => cases fault <;> simp [h4]

theorem srcDelete_not_in_s3Delete (store : S3Store) (req : Dict) (k : String) :
    Op.srcDelete k ∉ (s3HandleDelete store req).ops := by
  simp only [s3HandleDelete]
  cases h1 : dictGet? req "widgetId" with
  | none => simp
  | some wv =>
    cases h2 : kebabOwner (dictGetD req "owner" (.vstr "")) with
    | error e => simp
    | ok ow =>
      cases h3 : dictGet? store ("widgets/" ++ ow ++ "/" ++ pyStr wv) with
      | none => simp [h3]
      | some w => simp [h3]

theorem srcDelete_not_in_dynCreate (fault : Bool) (store : DynStore) (req : Dict) (k : String) :
    Op.srcDelete k ∉ (dynHandleCreate fault store req).ops := by
  simp only [dynHandleCreate]
  cases h1 : dictGet? req "widgetId" with
  | none => simp
  | some wv =>
    cases h2 : dictGet? req "requestId" with
    | none => simp
    | some rv =>
      cases h3 : makeWidgetFromRequestDynamo req with
      | error e => simp
      | ok item =>
        cases h4 : dictGet? item "id" with
        | none => simp [h4]
        | some idv => cases fault <;> simp [h4]

theorem srcDelete_not_in_dynDelete (store : DynStore) (req : Dict) (k : String) :
    Op.srcDelete k ∉ (dynHandleDelete store req).ops := by
  simp only [dynHandleDelete]
  cases h1 : dictGet? req "widgetId" with
  | none => simp
  | some wv =>
    cases h2 : dictGet? store wv with
    | none => simp [h2]
    | some w => simp [h2]

theorem srcDelete_not_in_routeS3 (fault : Bool) (store : S3Store) (body : Body) (k : String) :
    Op.srcDelete k ∉ (routeS3 fault store body).ops := by
  unfold routeS3
  repeat' split
  all_goals first
    | simp
    | exact srcDelete_not_in_s3Create _ _ _ _
    | exact srcDelete_not_in_s3Delete _ _ _

theorem srcDelete_not_in_routeDyn (fault : Bool) (store : DynStore) (body : Body) (k : String) :
    Op.srcDelete k ∉ (routeDyn fault store body).ops := by
  unfold routeDyn
  repeat' split
  all_goals first
    | simp
    | exact srcDelete_not_in_dynCreate _ _ _ _
    | exact srcDelete_not_in_dynDelete _ _ _

theorem srcDelete_not_in_processSys (strat : Strategy) (fault : Bool) (st : SysState)
    (body : Body) (k : String) : Op.srcDelete k ∉ (processSys strat fault st body).ops := by
  cases strat
  · simpa [processSys] using srcDelete_not_in_routeS3 fault st.s3Store body k
  · simpa [processSys] using srcDelete_not_in_routeDyn fault st.dynStore body k

/-- Claim C1. For every message whose processing raises a backend/service
(client) error, the polling loop logs the error, does not delete the
message from the source queue (queue and stores are unchanged, and no
source-delete call is issued), sleeps 1 second, and continues polling —
the message remains at the head of the queue for retry. -/
theorem c1_client_error_keeps_message {strat : Strategy} {fault : Bool} {st : SysState}
    {key : String} {body : Body} {rest : List (String × Body)} {c : String}
    (hq : st.queue = (key, body) :: rest)
    (hp : (processSys strat fault st body).res = .error (.clientError c)) :
    consumerStep strat fault st =
      ⟨st, (processSys strat fault st body).ops,
       LogMsg.foundRequest key ::
         ((processSys strat fault st body).log ++ [.awsClientError key c]), 1000⟩ ∧
    (∀ k, Op.srcDelete k ∉ (consumerStep strat fault st).ops) ∧
    (LogMsg.awsClientError key c).level = .error := by
  have hstep : consumerStep strat fault st =
      ⟨st, (processSys strat fault st body).ops,
       LogMsg.foundRequest key ::
         ((processSys strat fault st body).log ++ [.awsClientError key c]), 1000⟩ := by
    obtain ⟨q, s3s, dyns⟩ := st
    simp only at hq
    subst hq
    simp [consumerStep, hp]
  refine ⟨hstep, ?_, rfl⟩
  intro k
  rw [hstep]
  exact srcDelete_not_in_processSys strat fault st body k

/-- Claim C1, witness. With a fault injected on the backend put, the test
create request's processing raises a `ClientError`; the step keeps the
whole state (message included) and backs off 1 s. -/
theorem c1_witness :
    (processSys .s3 true (sys1 (.obj reqMary)) (.obj reqMary)).res =
      .error (.clientError "InternalError") ∧
    (consumerStep .s3 true (sys1 (.obj reqMary))).state = sys1 (.obj reqMary) ∧
    (consumerStep .s3 true (sys1 (.obj reqMary))).sleepMs = 1000 := by
  have h := @c1_client_error_keeps_message .s3 true (sys1 (.obj reqMary)) "m1.json"
    (.obj reqMary) [] "InternalError" rfl (by decide)
  exact ⟨by decide, by rw [h.1], by rw [h.1]⟩

/-- Claim C6. For every message whose body is not valid JSON (a poison
message), the loop logs the parse failure, issues exactly one delete
call against the message source and no storage-sink call, mutates no
store, and continues polling with the rest of the queue. -/
theorem c6_poison_message {strat : Strategy} {fault : Bool} {st : SysState}
    {key : String} {rest : List (String × Body)}
    (hq : st.queue = (key, Body.invalid) :: rest) :
    consumerStep strat fault st =
      ⟨{ st with queue := rest }, [Op.srcDelete key],
       [.foundRequest key, .parseFailure key], 0⟩ ∧
    (LogMsg.parseFailure key).level = .error := by
  refine ⟨?_, rfl⟩
  obtain ⟨q, s3s, dyns⟩ := st
  simp only at hq
  subst hq
  cases strat <;> simp [consumerStep, processSys, routeS3, routeDyn, Except.map]

/-- Claim C6, witness. A one-message queue holding a malformed body. -/
theorem c6_witness :
    (sys1 Body.invalid).queue = [("m1.json", Body.invalid)] ∧
    consumerStep .s3 false (sys1 Body.invalid) =
      ⟨⟨[], [], []⟩, [Op.srcDelete "m1.json"],
       [.foundRequest "m1.json", .parseFailure "m1.json"], 0⟩ := by
  refine ⟨rfl, ?_⟩
  have h := @c6_poison_message .s3 false (sys1 Body.invalid) "m1.json" [] rfl
  exact h.1

/-- Claim C8. For every parsed request whose `type` is unknown or missing,
the router logs an error naming the unknown type, invokes no handler and
no sink call (the only call issued is the loop's source delete, and both
stores are unchanged), and the source message is still deleted. -/
theorem c8_unknown_type {strat : Strategy} {fault : Bool} {st : SysState}
    {key : String} {fields : Dict} {rest : List (String × Body)}
    (hq : st.queue = (key, Body.obj fields) :: rest)
    (hu : unknownType fields = true) :
    consumerStep strat fault st =
      ⟨{ st with queue := rest }, [Op.srcDelete key],
       [.foundRequest key,
        .unknownRequestType (dictGet? fields "type") (dictGet? fields "requestId"),
        .processedAndDeleted key], 0⟩ ∧
    (LogMsg.unknownRequestType (dictGet? fields "type") (dictGet? fields "requestId")).level
      = .error := by
  refine ⟨?_, rfl⟩
  obtain ⟨q, s3s, dyns⟩ := st
  simp only at hq
  subst hq
  cases hT : dictGet? fields "type" with
  | none =>
    cases strat <;> simp [consumerStep, processSys, routeS3, routeDyn, Except.map, hT]
  | some tv =>
    cases tv with
    | vnull =>
      cases strat <;> simp [consumerStep, processSys, routeS3, routeDyn, Except.map, hT]
    | varr objs =>
      simp only [unknownType, hT] at hu
      exact absurd hu (by decide)
    | vstr s =>
      simp only [unknownType, hT] at hu
      by_cases h1 : s = "create" ∨ s = "delete" ∨ s = "update"
      · simp [h1] at hu
      · push_neg at h1
        cases strat <;>
          simp [consumerStep, processSys, routeS3, routeDyn, Except.map, hT,
            h1.1, h1.2.1, h1.2.2]

/-- Claim C8, witness. A request with `type = "archive"`. -/
theorem c8_witness :
    unknownType [("type", JVal.vstr "archive"), ("requestId", JVal.vstr "r6")] = true ∧
    consumerStep .dynamo false (sys1 (.obj [("type", .vstr "archive"), ("requestId", .vstr "r6")])) =
      ⟨⟨[], [], []⟩, [Op.srcDelete "m1.json"],
       [.foundRequest "m1.json",
        .unknownRequestType (some (.vstr "archive")) (some (.vstr "r6")),
        .processedAndDeleted "m1.json"], 0⟩ := by
  refine ⟨by decide, ?_⟩
  have h := @c8_unknown_type .dynamo false
    (sys1 (.obj [("type", .vstr "archive"), ("requestId", .vstr "r6")]))
    "m1.json" [("type", .vstr "archive"), ("requestId", .vstr "r6")]
    [] rfl (by decide)
  exact h.1.trans (by decide)

/-- Claim C9. For every create or delete request whose body parses as JSON
but lacks the `widgetId` field, processing raises an error (`KeyError`)
that the loop's catch-all branch catches, classifies as unexpected and
logs; the source message is deleted (not retried) and the loop backs
off 1 s. -/
theorem c9_missing_widget_id {strat : Strategy} {fault : Bool} {st : SysState}
    {key : String} {fields : Dict} {rest : List (String × Body)} {t : String}
    (hq : st.queue = (key, Body.obj fields) :: rest)
    (ht : dictGet? fields "type" = some (.vstr t))
    (htt : t = "create" ∨ t = "delete")
    (hw : dictGet? fields "widgetId" = none) :
    consumerStep strat fault st =
      ⟨{ st with queue := rest }, [Op.srcDelete key],
       [.foundRequest key, .unhandledError key], 1000⟩ ∧
    (LogMsg.unhandledError key).level = .error := by
  refine ⟨?_, rfl⟩
  obtain ⟨q, s3s, dyns⟩ := st
  simp only at hq
  subst hq
  rcases htt with rfl | rfl <;> cases strat <;>
    simp [consumerStep, processSys, routeS3, routeDyn, Except.map, ht, hw,
      s3HandleCreate, s3HandleDelete, dynHandleCreate, dynHandleDelete]

/-- Claim C9, witness. A create request without `widgetId`. -/
theorem c9_witness :
    dictGet? [("type", JVal.vstr "create"), ("requestId", JVal.vstr "r7")] "widgetId" = none ∧
    consumerStep .s3 false (sys1 (.obj [("type", .vstr "create"), ("requestId", .vstr "r7")])) =
      ⟨⟨[], [], []⟩, [Op.srcDelete "m1.json"],
       [.foundRequest "m1.json", .unhandledError "m1.json"], 1000⟩ := by
  refine ⟨by decide, ?_⟩
  have h := @c9_missing_widget_id .s3 false
    (sys1 (.obj [("type", .vstr "create"), ("requestId", .vstr "r7")]))
    "m1.json" [("type", .vstr "create"), ("requestId", .vstr "r7")]
    [] "create" rfl (by decide) (Or.inl rfl) (by decide)
  exact h.1

/-- Claim C7. For every delete request whose target widget is absent, each
sink checks existence first (`head_object` / `get_item` is the only
backend call — no backend delete is issued), logs a warning, and returns
without error; the loop then still removes the source message and
continues with no backoff (delete is idempotent — deleting twice is not
an error). -/
theorem c7_idempotent_delete :
    (∀ (fault : Bool) (st : SysState) (key : String) (fields : Dict)
        (rest : List (String × Body)) (wv : JVal) (ow : String),
      st.queue = (key, Body.obj fields) :: rest →
      dictGet? fields "type" = some (.vstr "delete") →
      dictGet? fields "widgetId" = some wv →
      kebabOwner (dictGetD fields "owner" (.vstr "")) = .ok ow →
      dictGet? st.s3Store ("widgets/" ++ ow ++ "/" ++ pyStr wv) = none →
      consumerStep .s3 fault st =
        ⟨{ st with queue := rest },
         [.headObject ("widgets/" ++ ow ++ "/" ++ pyStr wv), .srcDelete key],
         [.foundRequest key, .notFoundS3 wv ("widgets/" ++ ow ++ "/" ++ pyStr wv),
          .processedAndDeleted key], 0⟩ ∧
      (LogMsg.notFoundS3 wv ("widgets/" ++ ow ++ "/" ++ pyStr wv)).level = .warning) ∧
    (∀ (fault : Bool) (st : SysState) (key : String) (fields : Dict)
        (rest : List (String × Body)) (wv : JVal),
      st.queue = (key, Body.obj fields) :: rest →
      dictGet? fields "type" = some (.vstr "delete") →
      dictGet? fields "widgetId" = some wv →
      dictGet? st.dynStore wv = none →
      consumerStep .dynamo fault st =
        ⟨{ st with queue := rest }, [.getItem wv, .srcDelete key],
         [.foundRequest key, .notFoundDynamo wv, .processedAndDeleted key], 0⟩ ∧
      (LogMsg.notFoundDynamo wv).level = .warning) := by
  constructor
  · intro fault st key fields rest wv ow hq ht hw hk habs
    refine ⟨?_, rfl⟩
    obtain ⟨q, s3s, dyns⟩ := st
    simp only at hq habs
    subst hq
    simp [consumerStep, processSys, routeS3, s3HandleDelete, Except.map, ht, hw, hk, habs]
  · intro fault st key fields rest wv hq ht hw habs
    refine ⟨?_, rfl⟩
    obtain ⟨q, s3s, dyns⟩ := st
    simp only at hq habs
    subst hq
    simp [consumerStep, processSys, routeDyn, dynHandleDelete, Except.map, ht, hw, habs]

/-- Claim C7, witness. The ownerless delete request against empty stores:
both sinks warn, issue no backend delete, and the message is removed. -/
theorem c7_witness :
    dictGet? (sys1 (.obj reqNoOwnerDelete)).s3Store "widgets/unknown-owner/w5" = none ∧
    consumerStep .s3 false (sys1 (.obj reqNoOwnerDelete)) =
      ⟨⟨[], [], []⟩, [.headObject "widgets/unknown-owner/w5", .srcDelete "m1.json"],
       [.foundRequest "m1.json", .notFoundS3 (.vstr "w5") "widgets/unknown-owner/w5",
        .processedAndDeleted "m1.json"], 0⟩ ∧
    consumerStep .dynamo false (sys1 (.obj reqNoOwnerDelete)) =
      ⟨⟨[], [], []⟩, [.getItem (.vstr "w5"), .srcDelete "m1.json"],
       [.foundRequest "m1.json", .notFoundDynamo (.vstr "w5"),
        .processedAndDeleted "m1.json"], 0⟩ := by
  refine ⟨by decide, ?_, ?_⟩
  · have h := c7_idempotent_delete.1 false (sys1 (.obj reqNoOwnerDelete)) "m1.json"
      reqNoOwnerDelete [] (.vstr "w5") "unknown-owner" rfl (by decide) (by decide)
      (by decide) (by decide)
    exact h.1.trans (by decide)
  · have h := c7_idempotent_delete.2 false (sys1 (.obj reqNoOwnerDelete)) "m1.json"
      reqNoOwnerDelete [] (.vstr "w5") rfl (by decide) (by decide) (by decide)
    exact h.1.trans (by decide)
